import Mathlib

/-!
Verification development for `SpotifyDownloader.py`.

The Python source orchestrates external command-line tools.  We embed the
decision logic shallowly: the output directory is a list of file entries
(path name, byte size, modification time); every external-process invocation
is abstracted as an oracle supplying the exit status and the directory state
it leaves behind; the orchestrator's own logic (snapshot diffing, size
thresholds, retry loop, fallback, batch accumulation) is translated directly
from the source.
-/

/-- One file in the output directory: its name (path inside the single output
directory), size in bytes, and modification time.  Mirrors what the Python
code reads off `Path.stat()`. -/
structure FileEntry where
  name : String
  size : Nat
  mtime : Nat
deriving DecidableEq

/-- The suffix `.mp3` as characters; all snapshots in the source glob
`*.mp3`. -/
def mp3Suffix : List Char := ['.', 'm', 'p', '3']

/-- Does a file name match the glob `*.mp3`? -/
def isMp3Name (s : String) : Bool := mp3Suffix.isSuffixOf s.data

/-- Model of `output_path.glob("*.mp3")`: the mp3 files of a directory. -/
def globMp3 (d : List FileEntry) : List FileEntry := d.filter (fun f => isMp3Name f.name)

/-- Model of Python set subtraction `current_files - existing_files` on sets of
`Path` objects: the entries of `current` whose path (name) does not occur in
`existingSnap`.  Path identity only — a file rewritten in place under the same
name is not "new". -/
def diffByName (current existingSnap : List FileEntry) : List FileEntry :=
  current.filter (fun f => !(existingSnap.any (fun g => g.name == f.name)))

/-- Model of the size test `file.stat().st_size / (1024 * 1024) > 0.1` from the
source.  Division by the power of two is exact in binary floating point, so on
integer byte counts the Python comparison is exactly `10 * size > 1024 * 1024`. -/
def bigEnough (sz : Nat) : Bool := 1024 * 1024 < 10 * sz

/-- Model of `max(files, key=lambda x: x.stat().st_mtime)`: the most recently
modified entry (first maximal one under the fold order); `none` on the empty
list, where the Python `max` would raise. -/
def latestFile : List FileEntry → Option FileEntry
  | [] => none
  | f :: fs => some (fs.foldl (fun acc g => if acc.mtime < g.mtime then g else acc) f)

/-- Model of `verify_download_completion(output_path, expected_filename,
existing_files)` (SpotifyDownloader.py lines 354-413).  `current` is the list
of mp3 files the directory holds when the function globs it; `existing` is the
snapshot argument (`none` means the default: the function snapshots the same
directory itself, yielding the same listing). -/
def verify_download_completion (current : List FileEntry) (expected : Option String)
    (existing : Option (List FileEntry)) : Bool :=
  let existingFiles := existing.getD current
  let newFiles := diffByName current existingFiles
  if current.isEmpty then false
  else
    match expected with
    | some name =>
      match current.find? (fun f => f.name == name && bigEnough f.size) with
      | some f => newFiles.any (fun g => g.name == f.name)
      | none => false
    | none =>
      match latestFile newFiles with
      | some nf => bigEnough nf.size
      | none =>
        match latestFile current with
        | some lf => bigEnough lf.size
        | none => false

/-- A pre-existing large mp3, used in counterexamples: the delta between a
snapshot containing it and the same snapshot is empty. -/
def preexistingDir : List FileEntry := [⟨"old.mp3", 5000000, 5⟩]

/-- C1 counterexample: with an empty new-files delta (before = after =
one pre-existing 5 MB mp3) and no expected filename, the gate returns `true`
(the source falls through to "no new files, use the most recent overall" and
accepts it), refuting the claim that an empty delta always yields `Failure`. -/
theorem C1_cex :
    diffByName preexistingDir preexistingDir = [] ∧
    verify_download_completion preexistingDir none (some preexistingDir) = true := by
  constructor <;> rfl

/-- C1 (amended): given an empty new-files delta, `verify_download_completion`
returns `Failure` whenever an expected filename is supplied (for any name), and
with no expected filename it returns `Success` exactly when the directory holds
some mp3 file whose most recent representative is above the 0.1 MB threshold —
i.e. a pre-existing large mp3 makes the gate succeed despite the empty delta. -/
theorem C1_empty_delta (current : List FileEntry) (existing : Option (List FileEntry))
    (hempty : diffByName current (existing.getD current) = []) :
    (∀ name, verify_download_completion current (some name) existing = false) ∧
    (verify_download_completion current none existing = true ↔
      ∃ f, latestFile current = some f ∧ bigEnough f.size = true) := by
  constructor
  · intro name
    unfold verify_download_completion
    simp only [hempty]
    cases current.isEmpty with
    | true => simp
    | false =>
      simp only [Bool.false_eq_true, if_false]
      cases current.find? (fun f => f.name == name && bigEnough f.size) <;> simp
  · unfold verify_download_completion
    simp only [hempty]
    cases hc : current with
    | nil => simp [latestFile]
    | cons f fs =>
      simp only [List.isEmpty_cons, Bool.false_eq_true, if_false, latestFile]
      constructor
      · intro h
        exact ⟨_, rfl, h⟩
      · rintro ⟨g, hg, hbig⟩
        cases hg
        exact hbig

/-- C1 witness: instantiating the amended theorem at the concrete
pre-existing-file directory. -/
theorem C1_empty_delta_witness :
    diffByName preexistingDir ((some preexistingDir).getD preexistingDir) = [] ∧
    verify_download_completion preexistingDir (some "x.mp3") (some preexistingDir) = false ∧
    verify_download_completion preexistingDir none (some preexistingDir) = true := by
  have h := C1_empty_delta preexistingDir (some preexistingDir) (by rfl)
  exact ⟨by rfl, h.1 "x.mp3", h.2.mpr ⟨⟨"old.mp3", 5000000, 5⟩, rfl, rfl⟩⟩

/-- The literal host part of the URL pattern in `normalize_spotify_url`:
`https://open\.spotify\.com/`. -/
def hostChars : List Char := "https://open.spotify.com/".data

/-- The literal `track/` part of the pattern. -/
def trackChars : List Char := "track/".data

/-- The literal `intl-` head of the optional locale segment of the pattern. -/
def intlChars : List Char := "intl-".data

/-- The canonical track-URL prefix `https://open.spotify.com/track/`. -/
def canonPre : List Char := hostChars ++ trackChars

/-- The character class `[a-zA-Z0-9]` of the regex (ASCII only, as in Python). -/
def isAlnumChar (c : Char) : Bool :=
  ('a' ≤ c && c ≤ 'z') || ('A' ≤ c && c ≤ 'Z') || ('0' ≤ c && c ≤ '9')

/-- The character class `[a-z]` of the locale segment. -/
def isLowerAZ (c : Char) : Bool := 'a' ≤ c && c ≤ 'z'

/-- Match a literal character sequence at the head of the input, returning the
rest on success (the regex-literal primitive). -/
def dropLit : List Char → List Char → Option (List Char)
  | [], cs => some cs
  | _ :: _, [] => none
  | p :: ps, c :: cs => if c = p then dropLit ps cs else none

/-- Match `track/([a-zA-Z0-9]+)` at the head of the input, returning the
greedily captured id. -/
def matchTrack (cs : List Char) : Option (List Char) :=
  match dropLit trackChars cs with
  | none => none
  | some rest =>
    let tid := rest.takeWhile isAlnumChar
    if tid.isEmpty then none else some tid

/-- Match the locale segment `intl-[a-z]{2}/` at the head of the input. -/
def matchIntl (cs : List Char) : Option (List Char) :=
  match dropLit intlChars cs with
  | some (a :: b :: c :: rest) =>
    if isLowerAZ a && isLowerAZ b && c = '/' then some rest else none
  | _ => none

/-- Match the full pattern
`https://open\.spotify\.com/(?:intl-[a-z]{2}/)?track/([a-zA-Z0-9]+)` at the
head of the input.  The optional locale group is tried first (as the regex
engine does) and the engine backtracks to the group-absent alternative when
`track/` does not follow it. -/
def matchAt (cs : List Char) : Option (List Char) :=
  match dropLit hostChars cs with
  | none => none
  | some rest =>
    match matchIntl rest with
    | some rest2 =>
      match matchTrack rest2 with
      | some tid => some tid
      | none => matchTrack rest
    | none => matchTrack rest

/-- Model of `re.search` with the track pattern: try every start position left
to right and return the first captured id. -/
def searchTrack : List Char → Option (List Char)
  | [] => none
  | c :: cs =>
    match matchAt (c :: cs) with
    | some tid => some tid
    | none => searchTrack cs

/-- The canonical rebuilt URL `https://open.spotify.com/track/<id>` as
characters. -/
def canonChars (tid : List Char) : List Char := hostChars ++ (trackChars ++ tid)

/-- Model of `normalize_spotify_url` (SpotifyDownloader.py lines 266-273):
searches the input for the track pattern and rebuilds the canonical URL from
the captured id; returns the input unchanged when the pattern does not occur. -/
def normalize_spotify_url (url : String) : String :=
  match searchTrack url.data with
  | some tid => String.mk (canonChars tid)
  | none => url

/-- The whitespace characters removed by Python's `str.strip()` (ASCII part). -/
def stripChar (c : Char) : Bool :=
  c = ' ' || c = '\t' || c = '\n' || c = '\r' || c = '\x0b' || c = '\x0c'

/-- Model of `str.strip()`: drop leading and trailing whitespace. -/
def stripChars (cs : List Char) : List Char :=
  ((cs.dropWhile stripChar).reverse.dropWhile stripChar).reverse

/-- Model of `is_valid_spotify_track_url` (SpotifyDownloader.py lines 275-278):
the stripped, normalized URL must start with the canonical track prefix. -/
def is_valid_spotify_track_url (url : String) : Bool :=
  canonPre.isPrefixOf (normalize_spotify_url (String.mk (stripChars url.data))).data

lemma dropLit_append (p cs : List Char) : dropLit p (p ++ cs) = some cs := by
  induction p with
  | nil => rfl
  | cons x xs ih => simp [dropLit, ih]

lemma matchTrack_some {cs t : List Char} (h : matchTrack cs = some t) :
    t ≠ [] ∧ ∀ c ∈ t, isAlnumChar c = true := by
  unfold matchTrack at h
  cases hd : dropLit trackChars cs with
  | none => rw [hd] at h; exact absurd h (by simp)
  | some rest =>
    rw [hd] at h
    simp only [] at h
    split at h
    · exact absurd h (by simp)
    · cases h
      refine ⟨by simpa [List.isEmpty_iff] using ‹¬(rest.takeWhile isAlnumChar).isEmpty = true›, ?_⟩
      intro c hc
      exact List.mem_takeWhile_imp hc

lemma matchAt_some {cs t : List Char} (h : matchAt cs = some t) :
    t ≠ [] ∧ ∀ c ∈ t, isAlnumChar c = true := by
  unfold matchAt at h
  split at h
  · exact absurd h (by simp)
  · split at h
    · split at h
      · next htid => cases h; exact matchTrack_some htid
      · exact matchTrack_some h
    · exact matchTrack_some h

lemma searchTrack_some : ∀ {cs t : List Char}, searchTrack cs = some t →
    t ≠ [] ∧ ∀ c ∈ t, isAlnumChar c = true := by
  intro cs
  induction cs with
  | nil => intro t h; exact absurd h (by simp [searchTrack])
  | cons c cs ih =>
    intro t h
    unfold searchTrack at h
    cases hm : matchAt (c :: cs) with
    | some tid => rw [hm] at h; cases h; exact matchAt_some hm
    | none => rw [hm] at h; exact ih h

lemma matchIntl_track (t : List Char) : matchIntl (trackChars ++ t) = none := by
  have hcons : trackChars ++ t = 't' :: ("rack/".data ++ t) := rfl
  rw [hcons]
  rfl

lemma matchTrack_append (t : List Char) (hne : ¬t = [])
    (hal : ∀ c ∈ t, isAlnumChar c = true) :
    matchTrack (trackChars ++ t) = some t := by
  have h1 : matchTrack (trackChars ++ t) =
      (if (t.takeWhile isAlnumChar).isEmpty then none
       else some (t.takeWhile isAlnumChar)) := by
    unfold matchTrack
    rw [dropLit_append]
  rw [h1, List.takeWhile_eq_self_iff.mpr hal]
  simp [List.isEmpty_iff, hne]

lemma matchAt_canon (t : List Char) (hne : ¬t = [])
    (hal : ∀ c ∈ t, isAlnumChar c = true) :
    matchAt (canonChars t) = some t := by
  have h1 : matchAt (canonChars t) =
      match matchIntl (trackChars ++ t) with
      | some rest2 =>
        match matchTrack rest2 with
        | some tid => some tid
        | none => matchTrack (trackChars ++ t)
      | none => matchTrack (trackChars ++ t) := by
    unfold matchAt canonChars
    rw [dropLit_append]
  rw [h1, matchIntl_track]
  exact matchTrack_append t hne hal

lemma searchTrack_cons (c : Char) (cs t : List Char)
    (h : matchAt (c :: cs) = some t) : searchTrack (c :: cs) = some t := by
  unfold searchTrack
  rw [h]

lemma searchTrack_canon (t : List Char) (hne : ¬t = [])
    (hal : ∀ c ∈ t, isAlnumChar c = true) :
    searchTrack (canonChars t) = some t := by
  have hm : matchAt (canonChars t) = some t := matchAt_canon t hne hal
  have hcons : canonChars t = 'h' :: ("ttps://open.spotify.com/".data ++ (trackChars ++ t)) := rfl
  rw [hcons] at hm ⊢
  exact searchTrack_cons _ _ _ hm

/-- C9: `normalize_spotify_url` is idempotent on every URL string.  When the
pattern does not occur the input is returned unchanged, and when it does the
rebuilt canonical URL matches the pattern again at position 0 with the same
captured id. -/
theorem C9_normalize_idempotent (u : String) :
    normalize_spotify_url (normalize_spotify_url u) = normalize_spotify_url u := by
  cases hs : searchTrack u.data with
  | none =>
    have h1 : normalize_spotify_url u = u := by
      unfold normalize_spotify_url; rw [hs]
    rw [h1]
    unfold normalize_spotify_url
    rw [hs]
  | some t =>
    obtain ⟨hne, hal⟩ := searchTrack_some hs
    have h1 : normalize_spotify_url u = String.mk (canonChars t) := by
      unfold normalize_spotify_url; rw [hs]
    rw [h1]
    unfold normalize_spotify_url
    rw [show (String.mk (canonChars t)).data = canonChars t from rfl,
      searchTrack_canon t hne hal]

/-- Classification of one raw line of the batch-input file, following the loop
body of `read_songs_from_file` (SpotifyDownloader.py lines 895-911): strip the
line; blank or `#`-prefixed lines are skipped; valid track URLs are normalized;
anything else is recorded as invalid. -/
inductive LineClass where
  | skip : LineClass
  | valid : String → LineClass
  | invalid : String → LineClass
deriving DecidableEq

/-- Is the classification the invalid one? -/
def LineClass.bad : LineClass → Bool
  | .invalid _ => true
  | _ => false

/-- Classify one raw line as `read_songs_from_file` does. -/
def classifyLine (raw : String) : LineClass :=
  let line := stripChars raw.data
  if line.isEmpty then .skip
  else if line.headD ' ' = '#' then .skip
  else if is_valid_spotify_track_url (String.mk line) then
    .valid (normalize_spotify_url (String.mk line))
  else .invalid (String.mk line)

/-- The loop of `read_songs_from_file`: walks the lines carrying the
`seen_urls` set, and returns the accumulated `urls` and `invalid_urls` lists
(the invalid list holds the offending stripped lines; the source also records
line numbers, which only feed the printed report). -/
def readLoop : List String → List String → List String × List String
  | [], _ => ([], [])
  | raw :: rest, seen =>
    match classifyLine raw with
    | .skip => readLoop rest seen
    | .valid u =>
      if u ∈ seen then readLoop rest seen
      else
        let r := readLoop rest (u :: seen)
        (u :: r.1, r.2)
    | .invalid l =>
      let r := readLoop rest seen
      (r.1, l :: r.2)

/-- Model of `read_songs_from_file` (SpotifyDownloader.py lines 880-928) on the
list of raw lines of the file: `none` when any invalid URL was found or when no
valid URL remains, otherwise the deduplicated normalized URL list. -/
def read_songs_from_file (lines : List String) : Option (List String) :=
  let r := readLoop lines []
  if !r.2.isEmpty then none
  else if r.1.isEmpty then none
  else some r.1

/-- The normalized forms of the valid lines of the file, in file order —
the sequence the spec says the reader deduplicates. -/
def validUrls (lines : List String) : List String :=
  lines.filterMap (fun raw =>
    match classifyLine raw with
    | .valid u => some u
    | _ => none)

/-- The stripped contents of the invalid lines of the file, in file order. -/
def invalidLines (lines : List String) : List String :=
  lines.filterMap (fun raw =>
    match classifyLine raw with
    | .invalid l => some l
    | _ => none)

/-- Spec-side description of duplicate handling: keep the first occurrence of
each element, relative to an already-seen accumulator. -/
def dedupFirstAux : List String → List String → List String
  | [], _ => []
  | x :: xs, seen =>
    if x ∈ seen then dedupFirstAux xs seen
    else x :: dedupFirstAux xs (x :: seen)

/-- Spec-side description of duplicate handling: keep each element's first
occurrence, in first-occurrence order. -/
def dedupFirst (l : List String) : List String := dedupFirstAux l []

lemma readLoop_eq (lines : List String) : ∀ seen : List String,
    readLoop lines seen = (dedupFirstAux (validUrls lines) seen, invalidLines lines) := by
  induction lines with
  | nil => intro seen; rfl
  | cons raw rest ih =>
    intro seen
    cases hc : classifyLine raw with
    | skip =>
      have hv : validUrls (raw :: rest) = validUrls rest := by simp [validUrls, hc]
      have hi : invalidLines (raw :: rest) = invalidLines rest := by simp [invalidLines, hc]
      rw [hv, hi]
      unfold readLoop
      rw [hc]
      exact ih seen
    | valid u =>
      have hv : validUrls (raw :: rest) = u :: validUrls rest := by simp [validUrls, hc]
      have hi : invalidLines (raw :: rest) = invalidLines rest := by simp [invalidLines, hc]
      rw [hv, hi]
      unfold readLoop
      rw [hc]
      show (if u ∈ seen then readLoop rest seen
          else (u :: (readLoop rest (u :: seen)).1, (readLoop rest (u :: seen)).2)) =
        (dedupFirstAux (u :: validUrls rest) seen, invalidLines rest)
      by_cases hmem : u ∈ seen
      · rw [if_pos hmem, ih seen]
        have hd : dedupFirstAux (u :: validUrls rest) seen
            = dedupFirstAux (validUrls rest) seen := by
          rw [dedupFirstAux, if_pos hmem]
        rw [hd]
      · rw [if_neg hmem, ih (u :: seen)]
        have hd : dedupFirstAux (u :: validUrls rest) seen
            = u :: dedupFirstAux (validUrls rest) (u :: seen) := by
          rw [dedupFirstAux, if_neg hmem]
        rw [hd]
    | invalid l =>
      have hv : validUrls (raw :: rest) = validUrls rest := by simp [validUrls, hc]
      have hi : invalidLines (raw :: rest) = l :: invalidLines rest := by simp [invalidLines, hc]
      rw [hv, hi]
      unfold readLoop
      rw [hc]
      show ((readLoop rest seen).1, l :: (readLoop rest seen).2) =
        (dedupFirstAux (validUrls rest) seen, l :: invalidLines rest)
      rw [ih seen]

lemma dedupFirstAux_not_seen : ∀ (l seen : List String) (x : String),
    x ∈ dedupFirstAux l seen → x ∉ seen := by
  intro l
  induction l with
  | nil => intro seen x h; exact absurd h (by simp [dedupFirstAux])
  | cons y ys ih =>
    intro seen x h
    unfold dedupFirstAux at h
    by_cases hy : y ∈ seen
    · rw [if_pos hy] at h
      exact ih seen x h
    · rw [if_neg hy] at h
      rcases List.mem_cons.mp h with h1 | h2
      · cases h1; exact hy
      · intro hx
        exact ih (y :: seen) x h2 (List.mem_cons_of_mem _ hx)

lemma dedupFirstAux_nodup : ∀ (l seen : List String), (dedupFirstAux l seen).Nodup := by
  intro l
  induction l with
  | nil => intro seen; simp [dedupFirstAux]
  | cons y ys ih =>
    intro seen
    unfold dedupFirstAux
    by_cases hy : y ∈ seen
    · rw [if_pos hy]; exact ih seen
    · rw [if_neg hy]
      refine List.nodup_cons.mpr ⟨?_, ih (y :: seen)⟩
      intro hmem
      exact dedupFirstAux_not_seen ys (y :: seen) y hmem (List.mem_cons_self _ _)

lemma dedupFirstAux_mem : ∀ (l seen : List String) (x : String),
    x ∈ dedupFirstAux l seen ↔ x ∈ l ∧ x ∉ seen := by
  intro l
  induction l with
  | nil => intro seen x; simp [dedupFirstAux]
  | cons y ys ih =>
    intro seen x
    unfold dedupFirstAux
    by_cases hy : y ∈ seen
    · rw [if_pos hy, ih seen x]
      constructor
      · rintro ⟨h1, h2⟩; exact ⟨List.mem_cons_of_mem _ h1, h2⟩
      · rintro ⟨h1, h2⟩
        rcases List.mem_cons.mp h1 with h3 | h3
        · cases h3; exact absurd hy h2
        · exact ⟨h3, h2⟩
    · rw [if_neg hy]
      constructor
      · intro h
        rcases List.mem_cons.mp h with h1 | h1
        · cases h1; exact ⟨List.mem_cons_self _ _, hy⟩
        · have := (ih (y :: seen) x).mp h1
          refine ⟨List.mem_cons_of_mem _ this.1, fun hx => this.2 (List.mem_cons_of_mem _ hx)⟩
      · rintro ⟨h1, h2⟩
        rcases List.mem_cons.mp h1 with h3 | h3
        · cases h3; exact List.mem_cons_self _ _
        · by_cases hxy : x = y
          · cases hxy; exact List.mem_cons_self _ _
          · exact List.mem_cons_of_mem _
              ((ih (y :: seen) x).mpr ⟨h3, by simp [hxy, h2]⟩)

/-- C7: whenever `read_songs_from_file` returns a URL list, that list is
exactly the first-occurrence deduplication of the normalized valid lines
(blank and `#` lines contribute nothing), hence contains each normalized URL
exactly once, in first-occurrence order; later duplicates are skipped. -/
theorem C7_read_dedup (lines urls : List String)
    (h : read_songs_from_file lines = some urls) :
    urls = dedupFirst (validUrls lines) ∧ urls.Nodup ∧
    ∀ u, u ∈ urls ↔ u ∈ validUrls lines := by
  unfold read_songs_from_file at h
  rw [readLoop_eq lines []] at h
  dsimp only at h
  split at h
  · exact absurd h (by simp)
  · split at h
    · exact absurd h (by simp)
    · cases h
      refine ⟨rfl, dedupFirstAux_nodup _ _, fun u => ?_⟩
      rw [dedupFirstAux_mem]
      simp

/-- A concrete batch-input file: a comment, a blank line, and the same track
given twice in different surface forms that normalize identically. -/
def demoLines : List String :=
  ["# comment", "", "https://open.spotify.com/track/abc123",
   "https://open.spotify.com/intl-es/track/abc123"]

/-- C7 witness: the duplicate-URL file yields the normalized URL exactly once. -/
theorem C7_read_dedup_witness :
    read_songs_from_file demoLines = some ["https://open.spotify.com/track/abc123"] ∧
    (["https://open.spotify.com/track/abc123"] : List String).Nodup := by
  have h : read_songs_from_file demoLines =
      some ["https://open.spotify.com/track/abc123"] := by decide
  exact ⟨h, (C7_read_dedup demoLines _ h).2.1⟩

lemma readLoop_invalid_ne {lines : List String} {l : String}
    (hl : l ∈ lines) (hbad : (classifyLine l).bad = true) :
    ∀ seen, (readLoop lines seen).2 ≠ [] := by
  induction lines with
  | nil => exact absurd hl (by simp)
  | cons raw rest ih =>
    intro seen
    rw [readLoop_eq]
    rcases List.mem_cons.mp hl with h1 | h1
    · cases h1
      unfold invalidLines
      cases hc : classifyLine l with
      | skip => rw [hc] at hbad; exact absurd hbad (by simp [LineClass.bad])
      | valid u => rw [hc] at hbad; exact absurd hbad (by simp [LineClass.bad])
      | invalid s => simp [hc]
    · have := ih h1 seen
      rw [readLoop_eq] at this
      unfold invalidLines at this ⊢
      simp only [List.filterMap_cons]
      cases classifyLine raw <;> simp_all

/-- C10: if any non-blank, non-comment line of the batch-input file is not a
valid track URL, `read_songs_from_file` returns `none`, discarding the valid
URLs too. -/
theorem C10_invalid_rejects (lines : List String)
    (h : ∃ l ∈ lines, (classifyLine l).bad = true) :
    read_songs_from_file lines = none := by
  obtain ⟨l, hl, hbad⟩ := h
  unfold read_songs_from_file
  have hne := readLoop_invalid_ne hl hbad []
  simp only []
  rw [if_pos]
  simpa [List.isEmpty_iff] using hne

/-- A batch-input file holding one valid URL and one invalid line. -/
def badDemoLines : List String :=
  ["https://open.spotify.com/track/abc123", "notaurl"]

/-- C10 witness: one invalid line makes the reader reject the whole file. -/
theorem C10_invalid_rejects_witness :
    (∃ l ∈ badDemoLines, (classifyLine l).bad = true) ∧
    read_songs_from_file badDemoLines = none := by
  have hbad : (classifyLine "notaurl").bad = true := by decide
  have hmem : "notaurl" ∈ badDemoLines := by simp [badDemoLines]
  exact ⟨⟨"notaurl", hmem, hbad⟩,
    C10_invalid_rejects badDemoLines ⟨"notaurl", hmem, hbad⟩⟩

/-- Model of the fallback `download_with_yt_dlp` (SpotifyDownloader.py lines
105-191) after the external effects are abstracted: `searchOk` is whether the
YouTube search produced any result (empty results return failure before any
download), `exitZero` is the download process's exit status, and `dirAfter` is
the directory as the download process left it.  The source then globs all
`*.mp3` files of the directory — with no before/after snapshot diff — and
succeeds iff the most recently modified one is above the 0.1 MB threshold. -/
def download_with_yt_dlp (searchOk exitZero : Bool) (dirAfter : List FileEntry) : Bool :=
  if !searchOk then false
  else if exitZero then
    match latestFile (globMp3 dirAfter) with
    | some f => bigEnough f.size
    | none => false
  else false

lemma latestFile_mem : ∀ {l : List FileEntry} {f : FileEntry},
    latestFile l = some f → f ∈ l := by
  intro l f h
  match l with
  | [] => exact absurd h (by simp [latestFile])
  | g :: gs =>
    unfold latestFile at h
    injection h with h
    subst h
    induction gs generalizing g with
    | nil => simp
    | cons x xs ih =>
      simp only [List.foldl_cons]
      by_cases hx : g.mtime < x.mtime
      · rw [if_pos hx]
        rcases List.mem_cons.mp (ih x) with h1 | h1
        · rw [h1]; exact List.mem_cons_of_mem _ (List.mem_cons_self _ _)
        · exact List.mem_cons_of_mem _ (List.mem_cons_of_mem _ h1)
      · rw [if_neg hx]
        rcases List.mem_cons.mp (ih g) with h1 | h1
        · rw [h1]; exact List.mem_cons_self _ _
        · exact List.mem_cons_of_mem _ (List.mem_cons_of_mem _ h1)

lemma latestFile_ge : ∀ {l : List FileEntry} {f : FileEntry},
    latestFile l = some f → ∀ g ∈ l, g.mtime ≤ f.mtime := by
  intro l f h
  match l with
  | [] => exact absurd h (by simp [latestFile])
  | g :: gs =>
    unfold latestFile at h
    injection h with h
    subst h
    induction gs generalizing g with
    | nil => simp
    | cons x xs ih =>
      intro e he
      simp only [List.foldl_cons]
      rcases List.mem_cons.mp he with h1 | h1
      · subst h1
        by_cases hx : e.mtime < x.mtime
        · rw [if_pos hx]
          exact Nat.le_trans (Nat.le_of_lt hx) (ih x x (by simp))
        · rw [if_neg hx]
          exact ih e e (by simp)
      · rcases List.mem_cons.mp h1 with h2 | h2
        · subst h2
          by_cases hx : g.mtime < e.mtime
          · rw [if_pos hx]
            exact ih e e (by simp)
          · rw [if_neg hx]
            exact Nat.le_trans (Nat.le_of_not_lt hx) (ih g g (by simp))
        · by_cases hx : g.mtime < x.mtime
          · rw [if_pos hx]
            exact ih x e (by simp [h2])
          · rw [if_neg hx]
            exact ih g e (by simp [h2])

/-- C5 counterexample: the fallback reports success on a directory whose only
mp3 is a large pre-existing file — the before snapshot equals the after
directory, so the new-files delta is empty, yet the fallback succeeds,
refuting the claim that it applies the primary's snapshot-diff verification. -/
theorem C5_cex :
    download_with_yt_dlp true true preexistingDir = true ∧
    diffByName preexistingDir preexistingDir = [] := by
  constructor <;> rfl

/-- C5 (amended): the fallback verifies only the final state of the output
directory, with no snapshot diff: it reports success only when the search
returned a result, the download process exited zero, and the most recently
modified mp3 now in the directory — new or pre-existing — is above the 0.1 MB
threshold.  A large pre-existing file therefore can make it report success. -/
theorem C5_no_snapshot_diff (searchOk exitZero : Bool) (dirAfter : List FileEntry)
    (h : download_with_yt_dlp searchOk exitZero dirAfter = true) :
    searchOk = true ∧ exitZero = true ∧
    ∃ f, f ∈ globMp3 dirAfter ∧ bigEnough f.size = true ∧
      ∀ g ∈ globMp3 dirAfter, g.mtime ≤ f.mtime := by
  unfold download_with_yt_dlp at h
  cases searchOk with
  | false => exact absurd h (by simp)
  | true =>
    cases exitZero with
    | false => exact absurd h (by simp)
    | true =>
      refine ⟨rfl, rfl, ?_⟩
      simp only [Bool.not_true, Bool.false_eq_true, if_false, if_true] at h
      cases hl : latestFile (globMp3 dirAfter) with
      | none => rw [hl] at h; exact absurd h (by simp)
      | some f =>
        rw [hl] at h
        exact ⟨f, latestFile_mem hl, h, latestFile_ge hl⟩

/-- C5 witness: the amended theorem applied to the pre-existing-file
counterexample directory. -/
theorem C5_no_snapshot_diff_witness :
    download_with_yt_dlp true true preexistingDir = true ∧
    ∃ f, f ∈ globMp3 preexistingDir ∧ bigEnough f.size = true ∧
      ∀ g ∈ globMp3 preexistingDir, g.mtime ≤ f.mtime := by
  have h : download_with_yt_dlp true true preexistingDir = true := rfl
  exact ⟨h, (C5_no_snapshot_diff true true preexistingDir h).2.2⟩

/-- Model of `re.sub(r'[<>:"/\\|?*]', '', name)`: drop the path-unsafe
characters from a filename. -/
def sanitizeFilename (s : String) : String :=
  String.mk (s.data.filter (fun c =>
    !(c = '<' || c = '>' || c = ':' || c = '"' || c = '/' || c = '\\' ||
      c = '|' || c = '?' || c = '*')))

/-- The per-attempt verification block of the live retry loop of
`download_song_with_detailed_errors` (SpotifyDownloader.py lines 688-695):
after a zero exit, diff the globbed directory against the pre-loop snapshot;
exactly one new file above the 0.1 MB threshold is a success carrying that
file; anything else (zero or several new files, or one undersized new file)
fails the verification.  The undersized file is not touched. -/
def attemptVerify (existing current : List FileEntry) : Option FileEntry :=
  match diffByName current existing with
  | [f] => if bigEnough f.size then some f else none
  | _ => none

/-- The abstracted fallback collaborators of one `download_with_yt_dlp` call:
whether the YouTube search returned results, the exit status of the download
process, and the filesystem effect the invocation has on the directory. -/
structure YtOracle where
  searchOk : Bool
  exitZero : Bool
  effect : List FileEntry → List FileEntry

/-- Model of `latest_file.rename(new_path)`: the renamed entry keeps its size
and modification time under the new name. -/
def renameEntry (d : List FileEntry) (target : FileEntry) (newName : String) :
    List FileEntry :=
  d.map (fun f => if f = target then { f with name := newName } else f)

/-- The SpotDL retry loop of `download_song_with_detailed_errors`
(SpotifyDownloader.py lines 674-705): `run n d` abstracts the n-th `spotdl
download` invocation on directory state `d`, giving its exit-zero status and
the directory it leaves behind (timeouts and exceptions behave like non-zero
exits: print, sleep, continue).  `existing` is the single pre-loop mp3
snapshot the source diffs every attempt against.  Returns the verified file
(if any attempt succeeded), the number of invocations performed, and the final
directory state. -/
def primaryAttempts (run : Nat → List FileEntry → Bool × List FileEntry)
    (existing : List FileEntry) :
    Nat → Nat → List FileEntry → Option FileEntry × Nat × List FileEntry
  | _, 0, d => (none, 0, d)
  | i, k + 1, d =>
    let r := run i d
    if r.1 then
      match attemptVerify existing (globMp3 r.2) with
      | some f => (some f, 1, r.2)
      | none =>
        let rest := primaryAttempts run existing (i + 1) k r.2
        (rest.1, rest.2.1 + 1, rest.2.2)
    else
      let rest := primaryAttempts run existing (i + 1) k r.2
      (rest.1, rest.2.1 + 1, rest.2.2)

/-- The observable outcome of one `download_song_with_detailed_errors` call:
overall boolean result, number of primary (SpotDL) invocations, number of
fallback (yt-dlp) invocations, the labels appended to the caller's
`fallback_list`, and the final directory state. -/
structure DownloadRun where
  success : Bool
  primaryCalls : Nat
  fallbackCalls : Nat
  fallbackLabels : List String
  finalDir : List FileEntry
deriving DecidableEq

/-- Model of the live `download_song_with_detailed_errors` (SpotifyDownloader.py
lines 653-748): snapshot the mp3 files once, run the SpotDL retry loop with a
budget of 3, and if no attempt verifies, call the yt-dlp fallback once; on
fallback success the newest mp3 of the directory is renamed to the sanitized
`"<artist> - <title>.mp3"` form and the query label is appended to the
caller's fallback list.  `cleanQuery` abstracts the spotipy-resolved
`"{artist} - {title}"` string. -/
def download_song_with_detailed_errors
    (run : Nat → List FileEntry → Bool × List FileEntry) (yt : YtOracle)
    (cleanQuery : String) (dir0 : List FileEntry) : DownloadRun :=
  let existing := globMp3 dir0
  let p := primaryAttempts run existing 0 3 dir0
  match p.1 with
  | some _ => ⟨true, p.2.1, 0, [], p.2.2⟩
  | none =>
    let d2 := if yt.searchOk then yt.effect p.2.2 else p.2.2
    let ok := download_with_yt_dlp yt.searchOk yt.exitZero d2
    if ok then
      match latestFile (globMp3 d2) with
      | some latest =>
        ⟨true, p.2.1, 1, [cleanQuery],
          renameEntry d2 latest (sanitizeFilename (cleanQuery ++ ".mp3"))⟩
      | none => ⟨false, p.2.1, 1, [], d2⟩
    else ⟨false, p.2.1, 1, [], d2⟩

lemma primaryAttempts_all_fail (run : Nat → List FileEntry → Bool × List FileEntry)
    (existing : List FileEntry) (h : ∀ n d, (run n d).1 = false) :
    ∀ (k i : Nat) (d : List FileEntry),
      (primaryAttempts run existing i k d).1 = none ∧
      (primaryAttempts run existing i k d).2.1 = k := by
  intro k
  induction k with
  | zero => intro i d; exact ⟨rfl, rfl⟩
  | succ k ih =>
    intro i d
    have h2 := ih (i + 1) (run i d).2
    simp only [primaryAttempts, h, Bool.false_eq_true, if_false]
    exact ⟨h2.1, by rw [h2.2]⟩

/-- C2: with the fixed budget of 3 and a primary process that reports a
non-zero exit on every invocation, `download_song_with_detailed_errors`
invokes the primary exactly 3 times and then the yt-dlp fallback exactly
once. -/
theorem C2_retry_budget (run : Nat → List FileEntry → Bool × List FileEntry)
    (yt : YtOracle) (cleanQuery : String) (dir0 : List FileEntry)
    (h : ∀ n d, (run n d).1 = false) :
    (download_song_with_detailed_errors run yt cleanQuery dir0).primaryCalls = 3 ∧
    (download_song_with_detailed_errors run yt cleanQuery dir0).fallbackCalls = 1 := by
  have hp := primaryAttempts_all_fail run (globMp3 dir0) h 3 0 dir0
  simp only [download_song_with_detailed_errors]
  rw [hp.1]
  dsimp only
  rw [hp.2]
  constructor <;> (repeat' split) <;> rfl

/-- A primary collaborator that reports non-zero exit on every invocation and
leaves the directory unchanged. -/
def alwaysFailRun : Nat → List FileEntry → Bool × List FileEntry := fun _ d => (false, d)

/-- A fallback collaborator whose YouTube search finds nothing and which
leaves the directory unchanged. -/
def ytFailOracle : YtOracle := ⟨false, false, fun d => d⟩

/-- C2 witness: the retry-budget theorem at a concrete always-failing
collaborator. -/
theorem C2_retry_budget_witness :
    (∀ n d, (alwaysFailRun n d).1 = false) ∧
    (download_song_with_detailed_errors alwaysFailRun ytFailOracle "q" []).primaryCalls = 3 ∧
    (download_song_with_detailed_errors alwaysFailRun ytFailOracle "q" []).fallbackCalls = 1 := by
  have h : ∀ n d, (alwaysFailRun n d).1 = false := fun _ _ => rfl
  exact ⟨h, C2_retry_budget alwaysFailRun ytFailOracle "q" [] h⟩

/-- A primary collaborator whose first invocation exits zero after creating a
single new 103000-byte mp3 (above 100 KiB = 102400 bytes, but below the
source's actual 0.1 MB = 104857.6-byte threshold); later invocations fail. -/
def c4Run : Nat → List FileEntry → Bool × List FileEntry :=
  fun n d => if n = 0 then (true, ⟨"a.mp3", 103000, 1⟩ :: d) else (false, d)

/-- C4 counterexample: an attempt yielding exactly one new 103000-byte file —
strictly more than the claimed 102400-byte threshold — is NOT classified as a
success: the run exhausts all 3 attempts and fails, refuting the claimed
100 KiB cutoff. -/
theorem C4_cex :
    102400 < 103000 ∧
    diffByName (globMp3 (c4Run 0 []).2) (globMp3 ([] : List FileEntry)) =
      [⟨"a.mp3", 103000, 1⟩] ∧
    attemptVerify (globMp3 ([] : List FileEntry)) (globMp3 (c4Run 0 []).2) = none ∧
    (download_song_with_detailed_errors c4Run ytFailOracle "q" []).success = false ∧
    (download_song_with_detailed_errors c4Run ytFailOracle "q" []).primaryCalls = 3 := by
  decide

/-- C4 (amended): an attempt yielding exactly one new file is classified as a
success if and only if the file's size exceeds 0.1 MB with MB = 1024², i.e.
10·size > 1048576 bytes (so at least 104858 bytes), not 102400 bytes; and every
such successful first attempt returns immediately with exactly one primary
invocation. -/
theorem C4_threshold (existing current : List FileEntry) (f : FileEntry)
    (run : Nat → List FileEntry → Bool × List FileEntry) (yt : YtOracle)
    (cleanQuery : String) (dir0 : List FileEntry) :
    (attemptVerify existing current = some f ↔
      diffByName current existing = [f] ∧ bigEnough f.size = true) ∧
    ((run 0 dir0).1 = true →
      attemptVerify (globMp3 dir0) (globMp3 (run 0 dir0).2) = some f →
      (download_song_with_detailed_errors run yt cleanQuery dir0).success = true ∧
      (download_song_with_detailed_errors run yt cleanQuery dir0).primaryCalls = 1) := by
  constructor
  · constructor
    · intro h
      unfold attemptVerify at h
      cases hd : diffByName current existing with
      | nil => rw [hd] at h; exact absurd h (by simp)
      | cons g gs =>
        cases gs with
        | nil =>
          rw [hd] at h
          dsimp only at h
          split at h
          · cases h; exact ⟨rfl, by assumption⟩
          · exact absurd h (by simp)
        | cons g2 gs2 =>
          rw [hd] at h
          exact absurd h (by simp)
    · rintro ⟨h1, h2⟩
      unfold attemptVerify
      rw [h1]
      show (if bigEnough f.size = true then some f else none) = some f
      rw [h2]
      simp
  · intro h0 hv
    have hp : primaryAttempts run (globMp3 dir0) 0 3 dir0 = (some f, 1, (run 0 dir0).2) := by
      simp only [primaryAttempts, h0, if_true, hv]
    simp [download_song_with_detailed_errors, hp]

/-- A primary collaborator whose first invocation exits zero after creating a
single new 200000-byte mp3; later invocations fail. -/
def bigFileRun : Nat → List FileEntry → Bool × List FileEntry :=
  fun n d => if n = 0 then (true, ⟨"a.mp3", 200000, 1⟩ :: d) else (false, d)

/-- C4 witness: the amended threshold theorem at a 200000-byte new file —
above the real threshold — giving an immediate success after one primary
invocation. -/
theorem C4_threshold_witness :
    attemptVerify (globMp3 ([] : List FileEntry)) (globMp3 (bigFileRun 0 []).2) =
      some ⟨"a.mp3", 200000, 1⟩ ∧
    (bigFileRun 0 []).1 = true ∧
    (download_song_with_detailed_errors bigFileRun ytFailOracle "q" []).success = true ∧
    (download_song_with_detailed_errors bigFileRun ytFailOracle "q" []).primaryCalls = 1 := by
  have h := C4_threshold (globMp3 ([] : List FileEntry)) (globMp3 (bigFileRun 0 []).2)
    ⟨"a.mp3", 200000, 1⟩ bigFileRun ytFailOracle "q" []
  have hv : attemptVerify (globMp3 ([] : List FileEntry)) (globMp3 (bigFileRun 0 []).2) =
      some ⟨"a.mp3", 200000, 1⟩ := h.1.mpr ⟨by decide, by decide⟩
  exact ⟨hv, by decide, h.2 (by decide) hv⟩

lemma primaryAttempts_mem (run : Nat → List FileEntry → Bool × List FileEntry)
    (existing : List FileEntry) (f : FileEntry)
    (hmono : ∀ n d, ∀ g ∈ d, g ∈ (run n d).2) :
    ∀ (k i : Nat) (d : List FileEntry), f ∈ d →
      f ∈ (primaryAttempts run existing i k d).2.2 := by
  intro k
  induction k with
  | zero => intro i d hf; exact hf
  | succ k ih =>
    intro i d hf
    have hf2 : f ∈ (run i d).2 := hmono i d f hf
    cases hr : (run i d).1 with
    | true =>
      simp only [primaryAttempts, hr, if_true]
      cases hv : attemptVerify existing (globMp3 (run i d).2) with
      | some g => simp only [hv]; exact hf2
      | none => simp only [hv]; exact ih (i + 1) (run i d).2 hf2
    | false =>
      simp only [primaryAttempts, hr, Bool.false_eq_true, if_false]
      exact ih (i + 1) (run i d).2 hf2

/-- A primary collaborator whose first invocation exits zero after creating a
single new undersized (50000-byte) mp3; later invocations fail and leave the
directory untouched. -/
def c3Run : Nat → List FileEntry → Bool × List FileEntry :=
  fun n d => if n = 0 then (true, ⟨"a.mp3", 50000, 1⟩ :: d) else (false, d)

/-- C3 counterexample: the first attempt produces exactly one new undersized
file; the live loop does not delete it — after all retries and the failed
fallback the undersized artifact is still in the final directory, refuting
the claim that it is deleted before the next attempt. -/
theorem C3_cex :
    diffByName (globMp3 (c3Run 0 []).2) (globMp3 ([] : List FileEntry)) =
      [⟨"a.mp3", 50000, 1⟩] ∧
    bigEnough 50000 = false ∧
    (download_song_with_detailed_errors c3Run ytFailOracle "q" []).success = false ∧
    (⟨"a.mp3", 50000, 1⟩ : FileEntry) ∈
      (download_song_with_detailed_errors c3Run ytFailOracle "q" []).finalDir := by
  refine ⟨by decide, by decide, by decide, ?_⟩
  have : (download_song_with_detailed_errors c3Run ytFailOracle "q" []).finalDir =
      [⟨"a.mp3", 50000, 1⟩] := by decide
  rw [this]
  exact List.mem_singleton.mpr rfl

/-- C3 (amended): an attempt yielding exactly one new file of size at most the
threshold is classified as a failed verification and retried, but the file is
NOT deleted: provided the external invocations themselves never remove files,
a failing run leaves the undersized artifact in the final directory. -/
theorem C3_no_delete (run : Nat → List FileEntry → Bool × List FileEntry)
    (yt : YtOracle) (cleanQuery : String) (dir0 : List FileEntry) (f : FileEntry)
    (h0 : (run 0 dir0).1 = true)
    (hnew : diffByName (globMp3 (run 0 dir0).2) (globMp3 dir0) = [f])
    (hsmall : bigEnough f.size = false)
    (hmem : f ∈ (run 0 dir0).2)
    (hmono : ∀ n d, ∀ g ∈ d, g ∈ (run n d).2)
    (hyt : ∀ d, ∀ g ∈ d, g ∈ yt.effect d)
    (hfail : (download_song_with_detailed_errors run yt cleanQuery dir0).success = false) :
    attemptVerify (globMp3 dir0) (globMp3 (run 0 dir0).2) = none ∧
    f ∈ (download_song_with_detailed_errors run yt cleanQuery dir0).finalDir := by
  have hv : attemptVerify (globMp3 dir0) (globMp3 (run 0 dir0).2) = none := by
    unfold attemptVerify
    rw [hnew]
    show (if bigEnough f.size = true then some f else none) = none
    rw [hsmall]
    simp
  refine ⟨hv, ?_⟩
  have hstep : primaryAttempts run (globMp3 dir0) 0 3 dir0 =
      ((primaryAttempts run (globMp3 dir0) 1 2 (run 0 dir0).2).1,
       (primaryAttempts run (globMp3 dir0) 1 2 (run 0 dir0).2).2.1 + 1,
       (primaryAttempts run (globMp3 dir0) 1 2 (run 0 dir0).2).2.2) := by
    conv_lhs => rw [primaryAttempts]
    rw [h0]
    simp only [if_true, hv]
  have hmemp : f ∈ (primaryAttempts run (globMp3 dir0) 0 3 dir0).2.2 := by
    rw [hstep]
    exact primaryAttempts_mem run (globMp3 dir0) f hmono 2 1 (run 0 dir0).2 hmem
  cases hp : (primaryAttempts run (globMp3 dir0) 0 3 dir0).1 with
  | some g =>
    have : (download_song_with_detailed_errors run yt cleanQuery dir0).success = true := by
      simp [download_song_with_detailed_errors, hp]
    rw [this] at hfail
    exact absurd hfail (by simp)
  | none =>
    have hd2 : f ∈ (if yt.searchOk then
        yt.effect (primaryAttempts run (globMp3 dir0) 0 3 dir0).2.2
        else (primaryAttempts run (globMp3 dir0) 0 3 dir0).2.2) := by
      cases hso : yt.searchOk with
      | true => simp only [if_true]; exact hyt _ f hmemp
      | false => simp only [Bool.false_eq_true, if_false]; exact hmemp
    cases hok : download_with_yt_dlp yt.searchOk yt.exitZero
        (if yt.searchOk then yt.effect (primaryAttempts run (globMp3 dir0) 0 3 dir0).2.2
         else (primaryAttempts run (globMp3 dir0) 0 3 dir0).2.2) with
    | false =>
      have : (download_song_with_detailed_errors run yt cleanQuery dir0).finalDir =
          (if yt.searchOk then yt.effect (primaryAttempts run (globMp3 dir0) 0 3 dir0).2.2
           else (primaryAttempts run (globMp3 dir0) 0 3 dir0).2.2) := by
        simp [download_song_with_detailed_errors, hp, hok]
      rw [this]
      exact hd2
    | true =>
      cases hl : latestFile (globMp3
          (if yt.searchOk then yt.effect (primaryAttempts run (globMp3 dir0) 0 3 dir0).2.2
           else (primaryAttempts run (globMp3 dir0) 0 3 dir0).2.2)) with
      | some lat =>
        have : (download_song_with_detailed_errors run yt cleanQuery dir0).success = true := by
          simp [download_song_with_detailed_errors, hp, hok, hl]
        rw [this] at hfail
        exact absurd hfail (by simp)
      | none =>
        have : (download_song_with_detailed_errors run yt cleanQuery dir0).finalDir =
            (if yt.searchOk then yt.effect (primaryAttempts run (globMp3 dir0) 0 3 dir0).2.2
             else (primaryAttempts run (globMp3 dir0) 0 3 dir0).2.2) := by
          simp [download_song_with_detailed_errors, hp, hok, hl]
        rw [this]
        exact hd2

/-- C3 witness: the amended no-deletion theorem at the concrete undersized-file
collaborator. -/
theorem C3_no_delete_witness :
    attemptVerify (globMp3 ([] : List FileEntry)) (globMp3 (c3Run 0 []).2) = none ∧
    (⟨"a.mp3", 50000, 1⟩ : FileEntry) ∈
      (download_song_with_detailed_errors c3Run ytFailOracle "q" []).finalDir := by
  have hmono : ∀ n d, ∀ g ∈ d, g ∈ (c3Run n d).2 := by
    intro n d g hg
    unfold c3Run
    by_cases hn : n = 0
    · rw [if_pos hn]; exact List.mem_cons_of_mem _ hg
    · rw [if_neg hn]; exact hg
  have hyt : ∀ d, ∀ g ∈ d, g ∈ ytFailOracle.effect d := fun _ _ hg => hg
  have hmem : (⟨"a.mp3", 50000, 1⟩ : FileEntry) ∈ (c3Run 0 []).2 := by
    show (⟨"a.mp3", 50000, 1⟩ : FileEntry) ∈ [⟨"a.mp3", 50000, 1⟩]
    exact List.mem_singleton.mpr rfl
  exact C3_no_delete c3Run ytFailOracle "q" [] ⟨"a.mp3", 50000, 1⟩
    (by decide) (by decide) (by decide) hmem hmono hyt (by decide)

/-- The abstracted outcome of one per-item `download_song_with_detailed_errors`
call inside the batch loop: its boolean result, the labels it appends to the
fresh `fallback_downloads` list it is handed, and the directory it leaves. -/
structure ItemRun where
  success : Bool
  labels : List String
  dirAfter : List FileEntry

/-- The running state of the batch loop of `download_multiple_songs`: the
`stats` counters, the failed-URL list, the current `fallback_downloads`
variable — which the source re-initializes to `[]` at every iteration — and
the directory. -/
structure BatchState where
  succeeded : Nat
  failed : Nat
  failedUrls : List String
  fallbackCur : List String
  dir : List FileEntry
deriving DecidableEq

/-- The per-URL loop of `download_multiple_songs` (SpotifyDownloader.py lines
957-973): each iteration sets `fallback_downloads = []`, runs the item
download (abstracted by `runItem`, which returns the labels appended to that
fresh list), and updates the counters. -/
def batchLoop (runItem : Nat → String → List FileEntry → ItemRun) :
    Nat → BatchState → List String → BatchState
  | _, st, [] => st
  | i, st, url :: rest =>
    let r := runItem i url st.dir
    let st2 : BatchState :=
      if r.success then
        ⟨st.succeeded + 1, st.failed, st.failedUrls, r.labels, r.dirAfter⟩
      else
        ⟨st.succeeded, st.failed + 1, st.failedUrls ++ [url], r.labels, r.dirAfter⟩
    batchLoop runItem (i + 1) st2 rest

/-- The observable outcome of `download_multiple_songs`: the returned boolean,
the final counters, the fallback list as reported after the loop, and the
final directory. -/
structure BatchOut where
  overall : Bool
  succeeded : Nat
  failed : Nat
  failedUrls : List String
  reportedFallback : List String
  finalDir : List FileEntry
deriving DecidableEq

/-- Model of `download_multiple_songs` (SpotifyDownloader.py lines 930-1005)
from the point where the URL list is known: an empty list returns failure
immediately; otherwise the batch loop runs, the `fallback_downloads` list
left over from the last iteration is what gets reported, and the final check
returns failure when the output directory holds no mp3 files at all,
otherwise success iff no item failed. -/
def download_multiple_songs (urls : List String) (dir0 : List FileEntry)
    (runItem : Nat → String → List FileEntry → ItemRun) : BatchOut :=
  if urls.isEmpty then ⟨false, 0, 0, [], [], dir0⟩
  else
    let st := batchLoop runItem 0 ⟨0, 0, [], [], dir0⟩ urls
    let overall := if (globMp3 st.dir).isEmpty then false else st.failed == 0
    ⟨overall, st.succeeded, st.failed, st.failedUrls, st.fallbackCur, st.dir⟩

/-- A batch collaborator for three tracks: every item succeeds and drops one
large mp3; only the second item (index 1) goes through the fallback, appending
its label to the fresh per-iteration list. -/
def c6Item (i : Nat) (_ : String) (d : List FileEntry) : ItemRun :=
  if i = 0 then ⟨true, [], ⟨"a.mp3", 4000000, 1⟩ :: d⟩
  else if i = 1 then ⟨true, ["Artist Two - Track Two"], ⟨"b.mp3", 4000000, 2⟩ :: d⟩
  else ⟨true, [], ⟨"c.mp3", 4000000, 3⟩ :: d⟩

/-- A batch collaborator where instead the last of the three items uses the
fallback. -/
def c6ItemLast (i : Nat) (_ : String) (d : List FileEntry) : ItemRun :=
  if i = 0 then ⟨true, [], ⟨"a.mp3", 4000000, 1⟩ :: d⟩
  else if i = 1 then ⟨true, [], ⟨"b.mp3", 4000000, 2⟩ :: d⟩
  else ⟨true, ["Artist Three - Track Three"], ⟨"c.mp3", 4000000, 3⟩ :: d⟩

/-- C6: `fallback_downloads` is re-initialized inside the loop, so the list
reported after the batch is only the one of the LAST iteration: in a batch of
3 tracks where only track 2 succeeded via fallback the reported list is empty
instead of the claimed `[track2Label]`, and when the last item uses the
fallback only its label is reported.  The claim is right about the intent, the
code accumulates nothing across iterations. -/
theorem C6_reset_bug :
    (download_multiple_songs ["u1", "u2", "u3"] [] c6Item).reportedFallback = [] ∧
    (download_multiple_songs ["u1", "u2", "u3"] [] c6Item).succeeded = 3 ∧
    (download_multiple_songs ["u1", "u2", "u3"] [] c6Item).overall = true ∧
    (download_multiple_songs ["u1", "u2", "u3"] [] c6ItemLast).reportedFallback =
      ["Artist Three - Track Three"] := by
  decide

/-- C8: whenever the output directory contains no mp3 file after the whole
batch, `download_multiple_songs` reports overall failure, regardless of the
per-item counters (and an empty URL list fails outright as well). -/
theorem C8_empty_dir_fails (urls : List String) (dir0 : List FileEntry)
    (runItem : Nat → String → List FileEntry → ItemRun)
    (h : globMp3 ((download_multiple_songs urls dir0 runItem).finalDir) = []) :
    (download_multiple_songs urls dir0 runItem).overall = false := by
  unfold download_multiple_songs at h ⊢
  cases he : urls.isEmpty with
  | true => simp [he]
  | false =>
    rw [he] at h
    simp only [Bool.false_eq_true, if_false] at h ⊢
    rw [h]
    simp

/-- A batch collaborator that fails on every item and produces no file. -/
def nothingItem (_ : Nat) (_ : String) (d : List FileEntry) : ItemRun :=
  ⟨false, [], d⟩

/-- C8 witness: a one-item batch that leaves the directory without mp3 files
is reported failed. -/
theorem C8_empty_dir_fails_witness :
    globMp3 ((download_multiple_songs ["u1"] [] nothingItem).finalDir) = [] ∧
    (download_multiple_songs ["u1"] [] nothingItem).overall = false := by
  have h : globMp3 ((download_multiple_songs ["u1"] [] nothingItem).finalDir) = [] := by
    decide
  exact ⟨h, C8_empty_dir_fails ["u1"] [] nothingItem h⟩
